import Mathlib

/-!
Verification development for the yhmemo note-taking client.

The embedding translates the application controller (the `App` component:
subscription callback, `handleCreateNote`, `handleUpdateNote`,
`handleDeleteNote`) and the blur-triggered editor (`NoteEditor`) into pure
Lean functions.  Timestamps are modelled as `Nat`; the remote document store
is a list of (document id, raw document) pairs; a raw remote timestamp field
is either a store-native timestamp (has a `toDate` conversion) or a malformed
value without one, or absent altogether (`Option FieldVal`).
-/

/-- In-memory note shape (`types.ts`, as used by `App` and the views). -/
structure Note where
  id : String
  title : String
  content : String
  createdAt : Nat
  updatedAt : Nat
deriving Repr, DecidableEq

/-- A raw remote field value: a store-native timestamp (which has `toDate`)
or a malformed value without one. -/
inductive FieldVal where
  | ts (t : Nat)
  | malformed
deriving Repr, DecidableEq

/-- Raw remote document data as seen by the snapshot read path.  The
timestamp fields may be absent (`none`). -/
structure RawDoc where
  title : String
  content : String
  createdAt : Option FieldVal
  updatedAt : Option FieldVal
deriving Repr, DecidableEq

/-- The controller state: the in-memory note list and the selection. -/
structure AppState where
  notes : List Note
  selectedNote : Option Note
deriving Repr, DecidableEq

/-- The remote collection: store-assigned id paired with raw document data. -/
abbrev RemoteStore := List (String × RawDoc)

/-- Timestamp coercion `d.x?.toDate ? d.x.toDate() : new Date()`:
a present store-native timestamp is converted, anything else (absent field or
a value without `toDate`) becomes the current read time. -/
def coerceTime : Option FieldVal → Nat → Nat
  | some (.ts t), _ => t
  | _, now => now

/-- The snapshot document mapping: build a `Note` from a store id and raw
document data, defaulting each missing or malformed timestamp to `now`. -/
def docToNote (id : String) (d : RawDoc) (now : Nat) : Note :=
  { id := id, title := d.title, content := d.content,
    createdAt := coerceTime d.createdAt now,
    updatedAt := coerceTime d.updatedAt now }

/-- The `onSnapshot` callback: map every received document to a `Note`,
replace the whole in-memory list with the result, and clear the selection
when the selected note's id no longer appears in the fresh data. -/
def snapshotCallback (docs : List (String × RawDoc)) (now : Nat)
    (st : AppState) : AppState :=
  let data := docs.map fun p => docToNote p.1 p.2 now
  let sel : Option Note :=
    match st.selectedNote with
    | some n => if data.any (fun m => m.id == n.id) then some n else none
    | none => none
  { notes := data, selectedNote := sel }

/-- The document fields written by `handleCreateNote` via `addDoc`:
title `"새 메모"`, empty content, and the same `now` for both timestamps. -/
def createDocFields (now : Nat) : RawDoc :=
  { title := "새 메모", content := "",
    createdAt := some (.ts now), updatedAt := some (.ts now) }

/-- `handleCreateNote`: append the new document to the store (with the id the
store assigns) and immediately select the new note. -/
def handleCreateNote (now : Nat) (newId : String) (st : AppState)
    (store : RemoteStore) : AppState × RemoteStore :=
  let newNote : Note :=
    { id := newId, title := "새 메모", content := "",
      createdAt := now, updatedAt := now }
  ({ st with selectedNote := some newNote },
   store ++ [(newId, createDocFields now)])

/-- The field set passed to `updateDoc` by `handleUpdateNote`: title, content
and a refreshed `updatedAt` — there is no `createdAt` field in this shape. -/
structure UpdateFields where
  title : String
  content : String
  updatedAt : Nat
deriving Repr, DecidableEq

/-- The update payload `handleUpdateNote` builds from a note and the write
clock. -/
def updateFieldsOf (n : Note) (tWrite : Nat) : UpdateFields :=
  { title := n.title, content := n.content, updatedAt := tWrite }

/-- How the remote store merges an `updateDoc` payload into an existing
document: only the listed fields are overwritten. -/
def applyUpdateFields (d : RawDoc) (f : UpdateFields) : RawDoc :=
  { d with
    title := f.title, content := f.content,
    updatedAt := some (.ts f.updatedAt) }

/-- `updateDoc` on the collection: merge the payload into the document with
the matching id, leave every other document untouched. -/
def applyUpdate (store : RemoteStore) (id : String) (f : UpdateFields) :
    RemoteStore :=
  store.map fun p => if p.1 == id then (p.1, applyUpdateFields p.2 f) else p

/-- `handleUpdateNote`: write title/content plus a fresh `updatedAt` to the
store, then set the selection to the given note with a fresh `updatedAt`.
The code calls `new Date()` twice, so the written clock and the local clock
are separate parameters. -/
def handleUpdateNote (n : Note) (tWrite tLocal : Nat) (st : AppState)
    (store : RemoteStore) : AppState × RemoteStore :=
  ({ st with selectedNote := some { n with updatedAt := tLocal } },
   applyUpdate store n.id (updateFieldsOf n tWrite))

/-- `handleDeleteNote`: remove the document from the store; clear the
selection only when the selected note's id equals the deleted id. -/
def handleDeleteNote (noteId : String) (st : AppState)
    (store : RemoteStore) : AppState × RemoteStore :=
  let sel : Option Note :=
    match st.selectedNote with
    | some n => if n.id == noteId then none else some n
    | none => none
  ({ st with selectedNote := sel },
   store.filter fun p => !(p.1 == noteId))

/-- Subscription lifecycle events emitted by the effect runner. -/
inductive SubEvent where
  | subscribe
  | unsubscribe
deriving Repr, DecidableEq

/-- Number of adjacent renders on which the selected note differs from the
previous render's. -/
def countChanges : Option Note → List (Option Note) → Nat
  | _, [] => 0
  | prev, s :: rest => (if s = prev then 0 else 1) + countChanges s rest

/-- Events after the first render: on each later render whose `selectedNote`
differs from the previous one, the cleanup (`unsubscribe`) runs and the
effect (`onSnapshot` subscription) is re-run; on unmount the final cleanup
runs.  This is the React `useEffect` contract instantiated with the repo's
dependency list `[selectedNote]` and cleanup `() => unsubscribe()`. -/
def effectEventsAux : Option Note → List (Option Note) → List SubEvent
  | _, [] => [.unsubscribe]
  | prev, s :: rest =>
    if s = prev then effectEventsAux prev rest
    else .unsubscribe :: .subscribe :: effectEventsAux s rest

/-- Full event trace of the subscription effect over a render trace (the
successive values of `selectedNote`), ending with unmount. -/
def effectEvents : List (Option Note) → List SubEvent
  | [] => []
  | s :: rest => .subscribe :: effectEventsAux s rest

/-- Local draft state of the `NoteEditor` (blur-triggered variant). -/
structure EditorState where
  title : String
  content : String
deriving Repr, DecidableEq

/-- Editor input events: keystrokes in either field, and focus leaving a
field. -/
inductive EditorEvent where
  | titleChange (s : String)
  | contentChange (s : String)
  | titleBlur
  | contentBlur
deriving Repr, DecidableEq

/-- One step of the blur-triggered `NoteEditor`: returns the new draft state
and the list of `onUpdateNote` calls the event emits.  Keystrokes only write
the draft; a blur emits one update call when a note is selected, none
otherwise. -/
def editorStep (note : Option Note) (st : EditorState) :
    EditorEvent → EditorState × List Note
  | .titleChange s => ({ st with title := s }, [])
  | .contentChange s => ({ st with content := s }, [])
  | .titleBlur =>
    (st, match note with
         | some n => [{ n with title := st.title }]
         | none => [])
  | .contentBlur =>
    (st, match note with
         | some n => [{ n with content := st.content }]
         | none => [])

/-- A present store-native timestamp, if any. -/
def tsOf : Option FieldVal → Option Nat
  | some (.ts t) => some t
  | _ => none

/-- A remote document's timestamp fields are consistent with the read clock:
a present pair is ordered, a present `createdAt` alone is not after `now`,
a present `updatedAt` alone is not before `now`. -/
def clockConsistent (d : RawDoc) (now : Nat) : Bool :=
  match tsOf d.createdAt, tsOf d.updatedAt with
  | some c, some u => decide (c ≤ u)
  | some c, none => decide (c ≤ now)
  | none, some u => decide (now ≤ u)
  | none, none => true

/-! ### Claim theorems -/

/-- Claim C1, counterexample: the note selected right after Create has title
`"새 메모"`, not the empty string, so "title and content are both the empty
string" fails on the code. -/
theorem C1_counterexample :
    ((handleCreateNote 0 "id1" ⟨[], none⟩ []).1.selectedNote).map Note.title
      = some "새 메모" ∧ ("새 메모" : String) ≠ "" :=
  ⟨rfl, by decide⟩

/-- Claim C1 as amended: Create writes a new document whose title is the
fixed placeholder `"새 메모"` and whose content is the empty string, with the
same current timestamp for `createdAt` and `updatedAt`, and immediately
selects the newly created note, whose content is empty and whose title is
that placeholder; the rest of the state is untouched. -/
theorem C1_create_behavior (now : Nat) (newId : String) (st : AppState)
    (store : RemoteStore) :
    (handleCreateNote now newId st store).1.selectedNote
      = some { id := newId, title := "새 메모", content := "",
               createdAt := now, updatedAt := now } ∧
    (handleCreateNote now newId st store).2
      = store ++ [(newId, createDocFields now)] ∧
    createDocFields now
      = { title := "새 메모", content := "",
          createdAt := some (.ts now), updatedAt := some (.ts now) } ∧
    (handleCreateNote now newId st store).1.notes = st.notes :=
  ⟨rfl, rfl, rfl, rfl⟩

/-- Claim C10: Update unconditionally sets the local selection to the given
note with a refreshed `updatedAt`, whatever (if anything) was selected
before. -/
theorem C10_update_unconditional_selection (n : Note) (tWrite tLocal : Nat)
    (st : AppState) (store : RemoteStore) :
    (handleUpdateNote n tWrite tLocal st store).1.selectedNote
      = some { n with updatedAt := tLocal } :=
  rfl

/-- Claim C7: the adapter read path is total and silent — a `createdAt` or
`updatedAt` field that is absent or not a store-native timestamp is replaced
by the current read time, a present store-native timestamp is converted, and
every received document yields a note (the mapped list has the same length
as the snapshot, so no document is dropped and no error is surfaced). -/
theorem C7_read_defaults_silently (id : String) (d : RawDoc) (now : Nat) :
    ((d.createdAt = none ∨ d.createdAt = some FieldVal.malformed) →
      (docToNote id d now).createdAt = now) ∧
    ((d.updatedAt = none ∨ d.updatedAt = some FieldVal.malformed) →
      (docToNote id d now).updatedAt = now) ∧
    (∀ t, d.createdAt = some (.ts t) → (docToNote id d now).createdAt = t) ∧
    (∀ t, d.updatedAt = some (.ts t) → (docToNote id d now).updatedAt = t) ∧
    (∀ docs : List (String × RawDoc), ∀ st : AppState,
      (snapshotCallback docs now st).notes.length = docs.length) := by
  refine ⟨?_, ?_, ?_, ?_, ?_⟩
  · rintro (h | h) <;> simp [docToNote, coerceTime, h]
  · rintro (h | h) <;> simp [docToNote, coerceTime, h]
  · intro t h; simp [docToNote, coerceTime, h]
  · intro t h; simp [docToNote, coerceTime, h]
  · intro docs st; simp [snapshotCallback]

/-- Claim C7 witness at a concrete malformed document: both timestamp
fields default to the read time 7. -/
theorem C7_witness :
    (docToNote "a" ⟨"x", "y", none, some FieldVal.malformed⟩ 7).createdAt = 7
      ∧
    (docToNote "a" ⟨"x", "y", none, some FieldVal.malformed⟩ 7).updatedAt = 7
      :=
  ⟨(C7_read_defaults_silently "a" ⟨"x", "y", none, some FieldVal.malformed⟩
      7).1 (Or.inl rfl),
   (C7_read_defaults_silently "a" ⟨"x", "y", none, some FieldVal.malformed⟩
      7).2.1 (Or.inr rfl)⟩

/-- Claim C8: writing a note's fields through the adapter's write shapes and
re-reading through the read mapping yields the same title and content, and
the resulting timestamps are definite values (never null): for the update
shape, `updatedAt` is exactly the written clock and `createdAt` is the
stored document's coerced value; for the create shape, both timestamps read
back as the creation clock. -/
theorem C8_roundtrip (n : Note) (tWrite : Nat) (id : String) (d : RawDoc)
    (tRead tCreate tReadC : Nat) :
    (docToNote id (applyUpdateFields d (updateFieldsOf n tWrite)) tRead).title
      = n.title ∧
    (docToNote id (applyUpdateFields d (updateFieldsOf n tWrite))
      tRead).content = n.content ∧
    (docToNote id (applyUpdateFields d (updateFieldsOf n tWrite))
      tRead).updatedAt = tWrite ∧
    (docToNote id (applyUpdateFields d (updateFieldsOf n tWrite))
      tRead).createdAt = coerceTime d.createdAt tRead ∧
    docToNote id (createDocFields tCreate) tReadC
      = { id := id, title := "새 메모", content := "",
          createdAt := tCreate, updatedAt := tCreate } :=
  ⟨rfl, rfl, rfl, rfl, rfl⟩

/-- Helper: the effect runner emits one `subscribe` per selection change
after the first render. -/
theorem effectEventsAux_count_subscribe (rest : List (Option Note)) :
    ∀ prev, (effectEventsAux prev rest).count SubEvent.subscribe
      = countChanges prev rest := by
  induction rest with
  | nil => intro prev; simp [effectEventsAux, countChanges]
  | cons s rest ih =>
    intro prev
    by_cases h : s = prev
    · simp [effectEventsAux, countChanges, h, ih]
    · simp [effectEventsAux, countChanges, h, ih, List.count_cons]
      omega

/-- Helper: the effect runner emits one `unsubscribe` per selection change
after the first render, plus the final one at unmount. -/
theorem effectEventsAux_count_unsubscribe (rest : List (Option Note)) :
    ∀ prev, (effectEventsAux prev rest).count SubEvent.unsubscribe
      = countChanges prev rest + 1 := by
  induction rest with
  | nil => intro prev; simp [effectEventsAux, countChanges]
  | cons s rest ih =>
    intro prev
    by_cases h : s = prev
    · simp [effectEventsAux, countChanges, h, ih]
    · simp [effectEventsAux, countChanges, h, ih, List.count_cons]
      omega

/-- Helper: the effect runner's event list always ends in an `unsubscribe`. -/
theorem effectEventsAux_concat (rest : List (Option Note)) :
    ∀ prev, ∃ l, effectEventsAux prev rest = l ++ [SubEvent.unsubscribe] := by
  induction rest with
  | nil => intro prev; exact ⟨[], rfl⟩
  | cons s rest ih =>
    intro prev
    by_cases h : s = prev
    · obtain ⟨l, hl⟩ := ih prev
      exact ⟨l, by simp [effectEventsAux, h, hl]⟩
    · obtain ⟨l, hl⟩ := ih s
      exact ⟨SubEvent.unsubscribe :: SubEvent.subscribe :: l,
        by simp [effectEventsAux, h, hl]⟩

/-- Claim C4: over any render trace of `selectedNote` values, the
subscription effect subscribes once at the first render and once more per
selection change (so it is re-established whenever the selection changes,
not only once at startup), emits exactly as many teardowns as
subscriptions, ends with a final teardown at unmount, and on every render
whose selection differs from the previous one the old subscription is torn
down and a new one established. -/
theorem C4_subscription_lifecycle (s0 : Option Note)
    (rest : List (Option Note)) :
    (effectEvents (s0 :: rest)).count SubEvent.subscribe
      = 1 + countChanges s0 rest ∧
    (effectEvents (s0 :: rest)).count SubEvent.unsubscribe
      = 1 + countChanges s0 rest ∧
    (effectEvents (s0 :: rest)).getLast? = some SubEvent.unsubscribe ∧
    (effectEvents (s0 :: rest)).head? = some SubEvent.subscribe ∧
    (∀ (prev s : Option Note) (later : List (Option Note)), s ≠ prev →
      effectEventsAux prev (s :: later)
        = SubEvent.unsubscribe :: SubEvent.subscribe
            :: effectEventsAux s later) := by
  refine ⟨?_, ?_, ?_, rfl, ?_⟩
  · simp [effectEvents, List.count_cons, effectEventsAux_count_subscribe]
    omega
  · simp [effectEvents, List.count_cons, effectEventsAux_count_unsubscribe]
    omega
  · obtain ⟨l, hl⟩ := effectEventsAux_concat rest s0
    have : effectEvents (s0 :: rest)
        = (SubEvent.subscribe :: l) ++ [SubEvent.unsubscribe] := by
      simp [effectEvents, hl]
    rw [this, List.getLast?_concat]
  · intro prev s later h
    simp [effectEventsAux, h]

/-- Claim C4 witness: on the concrete render trace "no selection, then a
selected note, then unmount", the effect subscribes twice, unsubscribes
twice, and ends with an unsubscribe; the selection change tears down and
re-establishes the subscription. -/
theorem C4_witness :
    (effectEvents [none, some ⟨"a", "", "", 0, 0⟩]).count SubEvent.subscribe
      = 2 ∧
    (effectEvents [none, some ⟨"a", "", "", 0, 0⟩]).getLast?
      = some SubEvent.unsubscribe ∧
    effectEventsAux none [some ⟨"a", "", "", 0, 0⟩]
      = [SubEvent.unsubscribe, SubEvent.subscribe, SubEvent.unsubscribe] := by
  have h := C4_subscription_lifecycle none [some ⟨"a", "", "", 0, 0⟩]
  refine ⟨by rw [h.1]; rfl, h.2.2.1, ?_⟩
  have h2 := h.2.2.2.2 none (some ⟨"a", "", "", 0, 0⟩) [] (by decide)
  rw [h2]; rfl

/-- Helper: the callback's `data.find`-style check over the mapped notes
tests exactly whether the id occurs among the received document ids. -/
theorem any_mapped_id (docs : List (String × RawDoc)) (now : Nat)
    (nid : String) :
    ((docs.map fun p => docToNote p.1 p.2 now).any fun m => m.id == nid)
        = true
      ↔ nid ∈ docs.map Prod.fst := by
  rw [List.any_eq_true]
  constructor
  · rintro ⟨m, hm, hid⟩
    rw [List.mem_map] at hm
    obtain ⟨p, hp, rfl⟩ := hm
    have hpid : (docToNote p.1 p.2 now).id = nid := by simpa using hid
    rw [List.mem_map]
    exact ⟨p, hp, hpid⟩
  · intro h
    rw [List.mem_map] at h
    obtain ⟨p, hp, hpid⟩ := h
    refine ⟨docToNote p.1 p.2 now, List.mem_map_of_mem _ hp, ?_⟩
    simp [docToNote, hpid]

/-- Claim C3: the subscription callback replaces the whole in-memory list
with the freshly mapped snapshot, and — when a note is selected — ends with
an empty selection exactly when that note's id is absent from the received
document ids (the selection is kept unchanged when the id is still
present); an empty selection stays empty. -/
theorem C3_snapshot_replace_and_clear (docs : List (String × RawDoc))
    (now : Nat) (st : AppState) :
    (snapshotCallback docs now st).notes
      = docs.map (fun p => docToNote p.1 p.2 now) ∧
    (st.selectedNote = none →
      (snapshotCallback docs now st).selectedNote = none) ∧
    (∀ n, st.selectedNote = some n →
      (((snapshotCallback docs now st).selectedNote = none)
          ↔ n.id ∉ docs.map Prod.fst) ∧
      (n.id ∈ docs.map Prod.fst →
        (snapshotCallback docs now st).selectedNote = some n)) := by
  refine ⟨rfl, ?_, ?_⟩
  · intro h; simp [snapshotCallback, h]
  · intro n h
    by_cases hmem : n.id ∈ docs.map Prod.fst
    · have hb : ((docs.map fun p => docToNote p.1 p.2 now).any
          fun m => m.id == n.id) = true :=
        (any_mapped_id docs now n.id).mpr hmem
      constructor
      · simp [snapshotCallback, h, hb, hmem]
      · intro _; simp [snapshotCallback, h, hb]
    · have hb : ((docs.map fun p => docToNote p.1 p.2 now).any
          fun m => m.id == n.id) = false :=
        Bool.eq_false_iff.mpr
          (fun hc => hmem ((any_mapped_id docs now n.id).mp hc))
      constructor
      · simp [snapshotCallback, h, hb, hmem]
      · intro hc; exact absurd hc hmem

/-- Claim C3 witness: with the snapshot holding only document "a", a
selection on note "b" is cleared, while a selection on note "a" is kept. -/
theorem C3_witness :
    (snapshotCallback [("a", ⟨"t", "c", none, none⟩)] 5
      ⟨[], some ⟨"b", "x", "y", 0, 0⟩⟩).selectedNote = none ∧
    (snapshotCallback [("a", ⟨"t", "c", none, none⟩)] 5
      ⟨[], some ⟨"a", "x", "y", 0, 0⟩⟩).selectedNote
        = some ⟨"a", "x", "y", 0, 0⟩ :=
  ⟨((C3_snapshot_replace_and_clear [("a", ⟨"t", "c", none, none⟩)] 5
      ⟨[], some ⟨"b", "x", "y", 0, 0⟩⟩).2.2 ⟨"b", "x", "y", 0, 0⟩
        rfl).1.mpr (by decide),
   ((C3_snapshot_replace_and_clear [("a", ⟨"t", "c", none, none⟩)] 5
      ⟨[], some ⟨"a", "x", "y", 0, 0⟩⟩).2.2 ⟨"a", "x", "y", 0, 0⟩
        rfl).2 (by decide)⟩

/-- Helper: an `updateDoc` write leaves every document's `createdAt`
untouched (the payload has no `createdAt` field). -/
theorem applyUpdate_createdAt (store : RemoteStore) (id : String)
    (f : UpdateFields) :
    ((applyUpdate store id f).map fun p => p.2.createdAt)
      = store.map fun p => p.2.createdAt := by
  induction store with
  | nil => rfl
  | cons p rest ih =>
    by_cases hb : p.1 = id <;>
      simp [applyUpdate, hb, applyUpdateFields, ih] <;>
      simpa [applyUpdate] using ih

/-- Helper: an `updateDoc` write leaves every document id untouched. -/
theorem applyUpdate_ids (store : RemoteStore) (id : String)
    (f : UpdateFields) :
    (applyUpdate store id f).map Prod.fst = store.map Prod.fst := by
  induction store with
  | nil => rfl
  | cons p rest ih =>
    by_cases hb : p.1 = id <;>
      simp [applyUpdate, hb, applyUpdateFields, ih] <;>
      simpa [applyUpdate] using ih

/-- Claim C5: Update writes the note's title, content and a refreshed
`updatedAt` — taken at a write clock no earlier than the edit's timestamp —
to the matching remote document, leaves non-matching documents and every
document's `createdAt` and id untouched (the payload carries no
`createdAt`), and immediately sets the local selection to the note with the
refreshed `updatedAt`, independent of any subscription round-trip (the
in-memory list is untouched). -/
theorem C5_update_writes_and_selects (n : Note) (tEdit tWrite tLocal : Nat)
    (st : AppState) (store : RemoteStore)
    (hW : tEdit ≤ tWrite) (hL : tEdit ≤ tLocal) :
    tEdit ≤ tWrite ∧
    (∀ i d, (i, d) ∈ store → i ≠ n.id →
      (i, d) ∈ (handleUpdateNote n tWrite tLocal st store).2) ∧
    (∀ i d, (i, d) ∈ store → i = n.id →
      (i, { d with
            title := n.title, content := n.content,
            updatedAt := some (.ts tWrite) })
        ∈ (handleUpdateNote n tWrite tLocal st store).2) ∧
    (((handleUpdateNote n tWrite tLocal st store).2.map
        fun p => p.2.createdAt) = store.map fun p => p.2.createdAt) ∧
    ((handleUpdateNote n tWrite tLocal st store).2.map Prod.fst
      = store.map Prod.fst) ∧
    (handleUpdateNote n tWrite tLocal st store).1.selectedNote
      = some { n with updatedAt := tLocal } ∧
    tEdit ≤ tLocal ∧
    (handleUpdateNote n tWrite tLocal st store).1.notes = st.notes := by
  refine ⟨hW, ?_, ?_,
    applyUpdate_createdAt store n.id (updateFieldsOf n tWrite),
    applyUpdate_ids store n.id (updateFieldsOf n tWrite), rfl, hL, rfl⟩
  · intro i d hm hne
    have hmem := List.mem_map_of_mem
      (fun p : String × RawDoc =>
        if p.1 == n.id then (p.1, applyUpdateFields p.2 (updateFieldsOf n tWrite))
        else p) hm
    simpa [handleUpdateNote, applyUpdate, hne] using hmem
  · intro i d hm hieq
    subst hieq
    have hmem := List.mem_map_of_mem
      (fun p : String × RawDoc =>
        if p.1 == n.id then (p.1, applyUpdateFields p.2 (updateFieldsOf n tWrite))
        else p) hm
    simpa [handleUpdateNote, applyUpdate, applyUpdateFields,
      updateFieldsOf] using hmem

/-- Claim C5 witness at a concrete note and store: the matching document is
rewritten with the new fields, the selection carries the local clock, and
the other document is untouched. -/
theorem C5_witness :
    ("x", ({ title := "T", content := "C",
             createdAt := some (.ts 0), updatedAt := some (.ts 1) } : RawDoc))
      ∈ (handleUpdateNote ⟨"x", "T", "C", 0, 0⟩ 1 2 ⟨[], none⟩
          [("x", ⟨"t0", "c0", some (.ts 0), some (.ts 0)⟩),
           ("y", ⟨"t1", "c1", none, none⟩)]).2 ∧
    ("y", ({ title := "t1", content := "c1",
             createdAt := none, updatedAt := none } : RawDoc))
      ∈ (handleUpdateNote ⟨"x", "T", "C", 0, 0⟩ 1 2 ⟨[], none⟩
          [("x", ⟨"t0", "c0", some (.ts 0), some (.ts 0)⟩),
           ("y", ⟨"t1", "c1", none, none⟩)]).2 ∧
    (handleUpdateNote ⟨"x", "T", "C", 0, 0⟩ 1 2 ⟨[], none⟩
        [("x", ⟨"t0", "c0", some (.ts 0), some (.ts 0)⟩),
         ("y", ⟨"t1", "c1", none, none⟩)]).1.selectedNote
      = some ⟨"x", "T", "C", 0, 2⟩ := by
  have h := C5_update_writes_and_selects ⟨"x", "T", "C", 0, 0⟩ 0 1 2
    ⟨[], none⟩
    [("x", ⟨"t0", "c0", some (.ts 0), some (.ts 0)⟩),
     ("y", ⟨"t1", "c1", none, none⟩)] (by decide) (by decide)
  refine ⟨?_, ?_, h.2.2.2.2.2.1⟩
  · exact h.2.2.1 "x" ⟨"t0", "c0", some (.ts 0), some (.ts 0)⟩
      (by decide) rfl
  · exact h.2.1 "y" ⟨"t1", "c1", none, none⟩ (by decide) (by decide)

/-- Claim C6: Delete removes exactly the documents bearing the deleted id
from the remote store, clears the selection when the deleted note was the
selected one, leaves the selection unchanged when it was a different note or
none, and leaves the in-memory list untouched. -/
theorem C6_delete_removes_and_clears (noteId : String) (st : AppState)
    (store : RemoteStore) :
    (∀ p : String × RawDoc,
      p ∈ (handleDeleteNote noteId st store).2 ↔ p ∈ store ∧ p.1 ≠ noteId) ∧
    (∀ n, st.selectedNote = some n → n.id = noteId →
      (handleDeleteNote noteId st store).1.selectedNote = none) ∧
    (∀ n, st.selectedNote = some n → n.id ≠ noteId →
      (handleDeleteNote noteId st store).1.selectedNote = some n) ∧
    (st.selectedNote = none →
      (handleDeleteNote noteId st store).1.selectedNote = none) ∧
    (handleDeleteNote noteId st store).1.notes = st.notes := by
  refine ⟨?_, ?_, ?_, ?_, rfl⟩
  · intro p; simp [handleDeleteNote, List.mem_filter]
  · intro n h he; simp [handleDeleteNote, h, he]
  · intro n h hne; simp [handleDeleteNote, h, hne]
  · intro h; simp [handleDeleteNote, h]

/-- Claim C6 witness at concrete states: deleting the selected note's id
clears the selection, deleting a different id keeps it, and the deleted
document is gone from the store. -/
theorem C6_witness :
    (handleDeleteNote "a" ⟨[], some ⟨"a", "x", "y", 0, 0⟩⟩
      [("a", ⟨"t", "c", none, none⟩)]).1.selectedNote = none ∧
    (handleDeleteNote "a" ⟨[], some ⟨"b", "x", "y", 0, 0⟩⟩
      []).1.selectedNote = some ⟨"b", "x", "y", 0, 0⟩ ∧
    ¬ (("a", (⟨"t", "c", none, none⟩ : RawDoc))
        ∈ (handleDeleteNote "a" ⟨[], some ⟨"a", "x", "y", 0, 0⟩⟩
            [("a", ⟨"t", "c", none, none⟩)]).2) := by
  refine ⟨?_, ?_, ?_⟩
  · exact (C6_delete_removes_and_clears "a" ⟨[], some ⟨"a", "x", "y", 0, 0⟩⟩
      [("a", ⟨"t", "c", none, none⟩)]).2.1 ⟨"a", "x", "y", 0, 0⟩ rfl rfl
  · exact (C6_delete_removes_and_clears "a" ⟨[], some ⟨"b", "x", "y", 0, 0⟩⟩
      []).2.2.1 ⟨"b", "x", "y", 0, 0⟩ rfl (by decide)
  · intro hc
    have := ((C6_delete_removes_and_clears "a"
      ⟨[], some ⟨"a", "x", "y", 0, 0⟩⟩
      [("a", ⟨"t", "c", none, none⟩)]).1
        ("a", ⟨"t", "c", none, none⟩)).mp hc
    exact this.2 rfl

/-- Claim C2, counterexample: the read mapping passes remote timestamps
through unchecked, so a remote document carrying `createdAt = 5` and
`updatedAt = 3` yields a displayed note with `updatedAt < createdAt`. -/
theorem C2_counterexample :
    ¬ ∀ n ∈ (snapshotCallback
        [("a", ⟨"t", "c", some (.ts 5), some (.ts 3)⟩)] 4
        ⟨[], none⟩).notes,
      n.createdAt ≤ n.updatedAt := by decide

/-- Helper: the timestamp coercion returns the present store-native value,
else the read clock. -/
theorem coerceTime_eq_tsOf (f : Option FieldVal) (now : Nat) :
    coerceTime f now = (tsOf f).getD now := by
  cases f with
  | none => rfl
  | some fv => cases fv <;> rfl

/-- Helper: on a clock-consistent document the coerced timestamps come out
ordered. -/
theorem clockConsistent_coerce (d : RawDoc) (now : Nat)
    (h : clockConsistent d now = true) :
    coerceTime d.createdAt now ≤ coerceTime d.updatedAt now := by
  rw [coerceTime_eq_tsOf, coerceTime_eq_tsOf]
  unfold clockConsistent at h
  rcases htc : tsOf d.createdAt with _ | c <;>
    rcases htu : tsOf d.updatedAt with _ | u <;>
    rw [htc, htu] at h <;> simp at h ⊢ <;> omega

/-- Claim C2 as amended: `updatedAt ≥ createdAt` holds for every displayed
note whose remote document's present timestamp fields are consistent with
the read clock (a present pair is ordered, a present `createdAt` alone is
not after the read time, a present `updatedAt` alone is not before it), and
it holds for the note Create selects; the read mapping itself does not
enforce the invariant for arbitrary remote fields. -/
theorem C2_timestamps_invariant (docs : List (String × RawDoc)) (now : Nat)
    (st : AppState)
    (h : ∀ p ∈ docs, clockConsistent p.2 now = true) :
    (∀ n ∈ (snapshotCallback docs now st).notes,
      n.createdAt ≤ n.updatedAt) ∧
    (∀ (tc : Nat) (newId : String) (st2 : AppState) (store : RemoteStore),
      ∀ n, (handleCreateNote tc newId st2 store).1.selectedNote = some n →
        n.createdAt ≤ n.updatedAt) := by
  constructor
  · intro n hn
    have hn2 : n ∈ docs.map (fun p => docToNote p.1 p.2 now) := by
      simpa [snapshotCallback] using hn
    obtain ⟨p, hp, rfl⟩ := List.mem_map.mp hn2
    exact clockConsistent_coerce p.2 now (h p hp)
  · intro tc newId st2 store n hsel
    simp [handleCreateNote] at hsel
    subst hsel
    exact Nat.le_refl tc

/-- Claim C2 witness: a concrete ordered document read at clock 5 yields a
note satisfying the invariant. -/
theorem C2_witness :
    (docToNote "a" ⟨"t", "c", some (.ts 1), some (.ts 2)⟩ 5).createdAt
      ≤ (docToNote "a" ⟨"t", "c", some (.ts 1), some (.ts 2)⟩ 5).updatedAt :=
  (C2_timestamps_invariant [("a", ⟨"t", "c", some (.ts 1), some (.ts 2)⟩)]
    5 ⟨[], none⟩ (by decide)).1
    (docToNote "a" ⟨"t", "c", some (.ts 1), some (.ts 2)⟩ 5) (by decide)

/-- Claim C9: in the blur-triggered editor, a keystroke in either field only
rewrites the local draft state and emits no Update call; when a note is
selected, a blur of a field emits exactly one Update call carrying that
field's draft value (and no call at all when no note is selected). -/
theorem C9_blur_editor (note : Option Note) (st : EditorState) (s : String) :
    editorStep note st (.titleChange s) = ({ st with title := s }, []) ∧
    editorStep note st (.contentChange s) = ({ st with content := s }, []) ∧
    (∀ n, note = some n →
      (editorStep note st .titleBlur).2 = [{ n with title := st.title }] ∧
      (editorStep note st .contentBlur).2
        = [{ n with content := st.content }] ∧
      (editorStep note st .titleBlur).1 = st ∧
      (editorStep note st .contentBlur).1 = st) ∧
    (note = none →
      (editorStep note st .titleBlur).2 = [] ∧
      (editorStep note st .contentBlur).2 = []) := by
  refine ⟨rfl, rfl, ?_, ?_⟩
  · intro n h; subst h; exact ⟨rfl, rfl, rfl, rfl⟩
  · intro h; subst h; exact ⟨rfl, rfl⟩

/-- Claim C9 witness: with note "a" selected and draft title "T2", the title
blur emits exactly one Update call, carrying the drafted title. -/
theorem C9_witness :
    (editorStep (some ⟨"a", "T", "C", 0, 0⟩) ⟨"T2", "C2"⟩ .titleBlur).2
      = [⟨"a", "T2", "C", 0, 0⟩] ∧
    (editorStep (some ⟨"a", "T", "C", 0, 0⟩) ⟨"T2", "C2"⟩
      .titleBlur).2.length = 1 := by
  have h := (C9_blur_editor (some ⟨"a", "T", "C", 0, 0⟩) ⟨"T2", "C2"⟩
    "s").2.2.1 ⟨"a", "T", "C", 0, 0⟩ rfl
  exact ⟨h.1, by rw [h.1]; rfl⟩
